import Mathlib

/-!
Verification of the request-routing engine of a privacy-preserving LLM gateway.

The development shallowly embeds the routing core:
key selection (`key_server/internal/key_manager.py`), endpoint-id hashing
(`backend/shared/utils/hashing.py`), the temporal-mixing query router
(`backend/shared/services/query/routing.py`), the obfuscation pipeline
(`backend/shared/services/obfuscation/obfuscation.py`), the session manager
(`backend/shared/services/session/session_manager.py`) and the single-turn
completion workflow (`backend/shared/services/session/turn_completion.py`).

Machine integers are modelled as `Nat` (Python ints are unbounded; the float
weights 100.0 / 50.0 / 20.0 / 5.0 are integral and order-compared only, so they
are represented by the corresponding naturals).  Redis / Vault state is passed
explicitly; `async` suspension is irrelevant to the properties proved and the
coroutines are modelled as pure state-passing functions.  Randomness
(`secrets`-based shuffles and choices) is modelled by universally quantified
parameters constrained to the support of the sampler.
-/

namespace OAChat

/-! ### String helpers

Python's slicing, `str.strip` and containment are modelled through the
character list of the string, which the Lean kernel evaluates directly. -/

/-- Python `s[:n]` (first `n` characters). -/
def stringTake (s : String) (n : Nat) : String := String.mk (s.toList.take n)

/-- Python `s.strip()` (leading and trailing whitespace removed). -/
def stringTrim (s : String) : String :=
  String.mk (((s.toList.dropWhile Char.isWhitespace).reverse.dropWhile
    Char.isWhitespace).reverse)

/-- Python `c in s` for a single character. -/
def stringHasChar (s : String) (c : Char) : Bool := s.toList.contains c

/-! ### Key selection (`key_server/internal/key_manager.py`) -/

/-- Status mapping from `KeyManager._determine_key_status`. -/
def determine_key_status (tokens_hour : Nat) : String :=
  if tokens_hour = 0 then "Available"
  else if tokens_hour < 1000 then "Standby"
  else if tokens_hour < 5000 then "Active"
  else "RateLimited"

/-- Weight assignment from `KeyManager._intelligent_key_selection`
(the Python floats `100.0 / 50.0 / 20.0 / 5.0` rendered as naturals). -/
def keyWeight (tokens_hour : Nat) : Nat :=
  if tokens_hour = 0 then 100
  else if tokens_hour < 1000 then 50
  else if tokens_hour < 5000 then 20
  else 5

/-- One entry of the `weighted_keys` list built by `_intelligent_key_selection`. -/
structure WeightedKey where
  key_id : String
  weight : Nat
  tokens_hour : Nat
deriving DecidableEq, Repr

/-- The comparison realised by Python's
`weighted_keys.sort(key=lambda x: (-x["weight"], x["tokens_hour"]))`:
`x` may be placed no later than `y`. -/
def selLE (x y : WeightedKey) : Prop :=
  y.weight < x.weight ∨ (x.weight = y.weight ∧ x.tokens_hour ≤ y.tokens_hour)

instance : DecidableRel selLE := fun x y =>
  inferInstanceAs (Decidable (_ ∨ _))

instance : IsTotal WeightedKey selLE :=
  ⟨fun x y => by unfold selLE; omega⟩

instance : IsTrans WeightedKey selLE :=
  ⟨fun x y z hxy hyz => by unfold selLE at *; omega⟩

/-- The weighted entry `{"key_id": .., "weight": .., "tokens_hour": ..}` built
for a pool member, with `usage` the `key_usage_hour` counter store. -/
def mkWeighted (usage : String → Nat) (key_id : String) : WeightedKey :=
  { key_id := key_id, weight := keyWeight (usage key_id), tokens_hour := usage key_id }

/-- The full ordering of the pool produced by `_intelligent_key_selection`:
weighted entries stable-sorted by (weight descending, hourly tokens ascending)
— Python's `list.sort` is stable, so ties keep the enumeration order of
`available_keys` — then projected back to key ids. -/
def selectionOrder (usage : String → Nat) (available_keys : List String) : List String :=
  ((available_keys.map (mkWeighted usage)).insertionSort selLE).map WeightedKey.key_id

/-- Embeds `KeyManager._intelligent_key_selection`: returns the first `count` key ids
of the selection order (the session-weight write-back is a fire-and-forget side
effect that does not influence the returned value and is not modelled). -/
def intelligent_key_selection (usage : String → Nat) (available_keys : List String)
    (count : Nat) : List String :=
  (selectionOrder usage available_keys).take count

/-- Lexicographic (code-point) comparison of character lists, i.e. Python's
string `<=`. -/
def lexLE : List Char → List Char → Bool
  | [], _ => true
  | _ :: _, [] => false
  | x :: xs, y :: ys =>
    if x.toNat < y.toNat then true
    else if x.toNat = y.toNat then lexLE xs ys
    else false

/-- Modelled from the spec: the selection comparison as §4.1 words it, with ties
"broken by key id lexicographically for determinism".  Used only to compare the
spec's claimed order with the order the source actually computes. -/
def specSelLE (x y : WeightedKey) : Prop :=
  y.weight < x.weight ∨
    (x.weight = y.weight ∧
      (x.tokens_hour < y.tokens_hour ∨
        (x.tokens_hour = y.tokens_hour ∧ lexLE x.key_id.toList y.key_id.toList = true)))

instance : DecidableRel specSelLE := fun x y =>
  inferInstanceAs (Decidable (_ ∨ _))

/-- Modelled from the spec: key selection with the lexicographic tie-break the
spec describes. -/
def spec_key_selection (usage : String → Nat) (available_keys : List String)
    (count : Nat) : List String :=
  (((available_keys.map (mkWeighted usage)).insertionSort specSelLE).map
    WeightedKey.key_id).take count

/-- Position of the first occurrence of `k` in a list (list length if absent);
used to speak about "the position in the selection order". -/
def posIn {α : Type _} [DecidableEq α] (k : α) : List α → Nat
  | [] => 0
  | x :: xs => if x = k then 0 else posIn k xs + 1

/-! ### `KeyManager.select_keys_for_session` -/

/-- A selected-key record as returned over the `SelectKeysForSession` RPC. -/
structure SelectedKey where
  key_id : String
  provider : String
  model : String
  api_key : String
  tokens_hour : Nat
  tokens_total : Nat
  status : String
deriving DecidableEq, Repr

/-- The key server's backing state: pool sets `keys:<provider>:<model>`
(as the enumeration `SMEMBERS` yields), the Vault secret store
(`llm/<provider>/<model>/<key_id>` → api key, `none` when the secret is
missing), and the hourly / lifetime token counters. -/
structure KeyServerState where
  pools : String → String → List String
  vault : String → String → String → Option String
  usage : String → Nat
  totals : String → Nat

/-- Python's `model_string.split('/', 1)`: split at the first `/`. -/
def splitFirstSlash (s : String) : String × String :=
  (String.mk (s.toList.takeWhile (fun c => c ≠ '/')),
   String.mk ((s.toList.dropWhile (fun c => c ≠ '/')).drop 1))

/-- The body of the per-model loop of `KeyManager.select_keys_for_session`:
parse the `provider/model` string (skipping malformed entries), enumerate the
pool (skipping empty pools), run the intelligent selection, and for each
selected id fetch the Vault secret (skipping keys whose secret is missing) and
assemble the selected-key record. -/
def select_for_model (st : KeyServerState) (count_per_model : Nat)
    (model_string : String) : List SelectedKey :=
  if ¬ stringHasChar model_string '/' then []
  else
    let provider := stringTrim (splitFirstSlash model_string).1
    let model := stringTrim (splitFirstSlash model_string).2
    if provider = "" ∨ model = "" then []
    else
      let available_keys := st.pools provider model
      if available_keys = [] then []
      else
        (intelligent_key_selection st.usage available_keys
            (min count_per_model available_keys.length)).filterMap
          (fun key_id =>
            match st.vault provider model key_id with
            | none => none
            | some api_key =>
              some { key_id := key_id, provider := provider, model := model,
                     api_key := api_key,
                     tokens_hour := st.usage key_id,
                     tokens_total := st.totals key_id,
                     status := determine_key_status (st.usage key_id) })

/-- Embeds `KeyManager.select_keys_for_session`: the per-model results accumulated in
request order.  The source never raises for an empty pool — the model is
skipped with a log line and the loop continues. -/
def select_keys_for_session (st : KeyServerState) (models : List String)
    (count_per_model : Nat) : List SelectedKey :=
  (models.map (select_for_model st count_per_model)).flatten

/-- Whether a requested `provider/model` string parses and has a non-empty
pool, i.e. whether `select_keys_for_session` processes it at all. -/
def requestServable (st : KeyServerState) (model_string : String) : Bool :=
  stringHasChar model_string '/' &&
    !(stringTrim (splitFirstSlash model_string).1 = "" ∨
      stringTrim (splitFirstSlash model_string).2 = "" : Bool) &&
    !(st.pools (stringTrim (splitFirstSlash model_string).1)
        (stringTrim (splitFirstSlash model_string).2) = [] : Bool)

/-! ### SHA-256 (the `hashlib.sha256(...).hexdigest()` primitive)

Bytes and 32-bit words are naturals reduced `% 2 ^ 32` where the algorithm
wraps.  The implementation matches FIPS 180-4 and is validated against the
standard test vectors in the theorems section. -/

/-- Right rotation of a 32-bit word. -/
def rotr32 (n x : Nat) : Nat := ((x >>> n) ||| (x <<< (32 - n))) % 2 ^ 32

def smallSigma0 (x : Nat) : Nat := rotr32 7 x ^^^ rotr32 18 x ^^^ (x >>> 3)

def smallSigma1 (x : Nat) : Nat := rotr32 17 x ^^^ rotr32 19 x ^^^ (x >>> 10)

def bigSigma0 (x : Nat) : Nat := rotr32 2 x ^^^ rotr32 13 x ^^^ rotr32 22 x

def bigSigma1 (x : Nat) : Nat := rotr32 6 x ^^^ rotr32 11 x ^^^ rotr32 25 x

def chNat (x y z : Nat) : Nat := (x &&& y) ^^^ ((x ^^^ 0xffffffff) &&& z)

def majNat (x y z : Nat) : Nat := (x &&& y) ^^^ (x &&& z) ^^^ (y &&& z)

/-- The 64 round constants of the SHA-256 compression function (decimal
rendering of the FIPS 180-4 table). -/
def sha256K : List Nat :=
  [1116352408, 1899447441, 3049323471, 3921009573, 961987163, 1508970993,
   2453635748, 2870763221, 3624381080, 310598401, 607225278, 1426881987,
   1925078388, 2162078206, 2614888103, 3248222580, 3835390401, 4022224774,
   264347078, 604807628, 770255983, 1249150122, 1555081692, 1996064986,
   2554220882, 2821834349, 2952996808, 3210313671, 3336571891, 3584528711,
   113926993, 338241895, 666307205, 773529912, 1294757372, 1396182291,
   1695183700, 1986661051, 2177026350, 2456956037, 2730485921, 2820302411,
   3259730800, 3345764771, 3516065817, 3600352804, 4094571909, 275423344,
   430227734, 506948616, 659060556, 883997877, 958139571, 1322822218,
   1537002063, 1747873779, 1955562222, 2024104815, 2227730452, 2361852424,
   2428436474, 2756734187, 3204031479, 3329325298]

/-- The SHA-256 initial hash value (decimal rendering). -/
def sha256H0 : List Nat :=
  [1779033703, 3144134277, 1013904242, 2773480762,
   1359893119, 2600822924, 528734635, 1541459225]

/-- Big-endian byte rendering of `n` in `len` bytes. -/
def natToBytesBE (len n : Nat) : List Nat :=
  (List.range len).map (fun i => (n >>> (8 * (len - 1 - i))) % 256)

/-- SHA-256 message padding to a multiple of 64 bytes. -/
def sha256pad (msg : List Nat) : List Nat :=
  let padZeros := (64 - (msg.length + 9) % 64) % 64
  msg ++ [0x80] ++ List.replicate padZeros 0 ++ natToBytesBE 8 (8 * msg.length)

def bytesToWordBE (bs : List Nat) : Nat := bs.foldl (fun a b => a * 256 + b) 0

/-- The 16 initial 32-bit words of a 64-byte block. -/
def blockWords (block : List Nat) : List Nat :=
  (List.range 16).map (fun i => bytesToWordBE ((block.drop (4 * i)).take 4))

/-- Message-schedule extension appending `m` further words. -/
def extendSchedule : List Nat → Nat → List Nat
  | ws, 0 => ws
  | ws, m + 1 =>
    let n := ws.length
    let w := (smallSigma1 (ws.getD (n - 2) 0) + ws.getD (n - 7) 0 +
              smallSigma0 (ws.getD (n - 15) 0) + ws.getD (n - 16) 0) % 2 ^ 32
    extendSchedule (ws ++ [w]) m

def sha256schedule (block : List Nat) : List Nat := extendSchedule (blockWords block) 48

/-- One compression round on the working variables `[a, b, c, d, e, f, g, h]`. -/
def compressStep (v : List Nat) (k w : Nat) : List Nat :=
  match v with
  | [a, b, c, d, e, f, g, h] =>
    let t1 := (h + bigSigma1 e + chNat e f g + k + w) % 2 ^ 32
    let t2 := (bigSigma0 a + majNat a b c) % 2 ^ 32
    [(t1 + t2) % 2 ^ 32, a, b, c, (d + t1) % 2 ^ 32, e, f, g]
  | _ => v

/-- SHA-256 compression of one 64-byte block into the running hash. -/
def compressBlock (h : List Nat) (block : List Nat) : List Nat :=
  let v := (sha256K.zip (sha256schedule block)).foldl
    (fun v kw => compressStep v kw.1 kw.2) h
  (h.zip v).map (fun p => (p.1 + p.2) % 2 ^ 32)

/-- The eight 32-bit digest words of a byte message. -/
def sha256digestWords (msg : List Nat) : List Nat :=
  let padded := sha256pad msg
  ((List.range (padded.length / 64)).map
    (fun i => (padded.drop (64 * i)).take 64)).foldl compressBlock sha256H0

def hexDigitChar (n : Nat) : Char := if n < 10 then Char.ofNat (48 + n) else Char.ofNat (87 + n)

def wordToHex (w : Nat) : String :=
  String.mk ((List.range 8).map (fun i => hexDigitChar ((w >>> (4 * (7 - i))) % 16)))

def sha256hexBytes (msg : List Nat) : String :=
  String.join ((sha256digestWords msg).map wordToHex)

/-- UTF-8 encoding of one character, as byte values. -/
def utf8EncodeCharNat (c : Char) : List Nat :=
  let v := c.toNat
  if v < 0x80 then [v]
  else if v < 0x800 then
    [0xc0 ||| (v >>> 6), 0x80 ||| (v &&& 0x3f)]
  else if v < 0x10000 then
    [0xe0 ||| (v >>> 12), 0x80 ||| ((v >>> 6) &&& 0x3f), 0x80 ||| (v &&& 0x3f)]
  else
    [0xf0 ||| (v >>> 18), 0x80 ||| ((v >>> 12) &&& 0x3f),
     0x80 ||| ((v >>> 6) &&& 0x3f), 0x80 ||| (v &&& 0x3f)]

/-- Python's `hashlib.sha256(s.encode('utf-8')).hexdigest()`. -/
def sha256hex (s : String) : String :=
  sha256hexBytes ((s.toList.map utf8EncodeCharNat).flatten)

/-! ### Endpoint-id and key-hash derivation (`backend/shared/utils/hashing.py`,
`SessionManager._generate_session_specific_api_key_hash`) -/

/-- The `hash_input` f-string of `generate_endpoint_id`:
`f"{provider}:{model}:{key_id}:{timestamp}:{session_salt}"` with
`session_salt = session_id[:8]` when a session id is given and `"global00"`
otherwise. -/
def endpoint_hash_input (provider model key_id : String) (timestamp : Nat)
    (session_id : Option String) : String :=
  let session_salt := match session_id with
    | some sid => stringTake sid 8
    | none => "global00"
  provider ++ ":" ++ model ++ ":" ++ key_id ++ ":" ++ toString timestamp ++ ":" ++ session_salt

/-- Embeds `generate_endpoint_id` from `hashing.py`, with the coarse integer timestamp
(`int(current_time)`) passed explicitly and the default `length = 20` applied
at every call site of the repository. -/
def generate_endpoint_id (provider model key_id : String) (session_id : Option String)
    (timestamp : Nat) : String :=
  stringTake (sha256hex (endpoint_hash_input provider model key_id timestamp session_id)) 20

/-- Embeds `SessionManager._generate_session_specific_api_key_hash`:
`SHA256(f"{key_id}:{session_id}:{hour_bucket}")[:24]`. -/
def generate_session_specific_api_key_hash (key_id session_id hour_bucket : String) : String :=
  stringTake (sha256hex (key_id ++ ":" ++ session_id ++ ":" ++ hour_bucket)) 24

/-! ### Query router (`backend/shared/services/query/routing.py`)

`Raw` abstracts the provider SDK's response objects (a stream handle in
streaming mode, a response dict otherwise); content extraction from the raw
dict is response normalisation shared by every branch and is kept abstract.
A driver instance exposes the streaming `send_message` method and, when the
concrete provider class defines it (`hasattr(endpoint_instance,
'send_message_non_streaming')`), the non-streaming method. -/

/-- A provider driver instance as the router sees it. -/
structure Driver (Raw : Type) where
  sendMessage : String → Raw
  sendMessageNonStreaming : Option (String → Raw)

/-- Which underlying driver method a dispatch invokes. -/
inductive DriverMethod
  | streamingMethod
  | nonStreamingMethod
deriving DecidableEq, Repr

/-- Result of `QueryRouter._send_regular_message`: the `{"type": "streaming",
"stream": ...}` wrapper or the normalised `{"type": "complete", ...,
"raw_response": ...}` wrapper. -/
inductive RegResult (Raw : Type)
  | streamingResult (stream : Raw)
  | completeResult (raw : Raw)
deriving DecidableEq

/-- Embeds `QueryRouter._send_regular_message`: streaming requests call the driver's
streaming method; non-streaming requests prefer `send_message_non_streaming`
and fall back to the streaming method when the driver lacks it. -/
def send_regular_message {Raw : Type} (d : Driver Raw) (prompt : String)
    (streaming : Bool) : RegResult Raw :=
  if streaming then .streamingResult (d.sendMessage prompt)
  else
    match d.sendMessageNonStreaming with
    | some f => .completeResult (f prompt)
    | none => .completeResult (d.sendMessage prompt)

/-- The driver method `_send_regular_message` invokes. -/
def regular_send_method {Raw : Type} (d : Driver Raw) (streaming : Bool) : DriverMethod :=
  if streaming then .streamingMethod
  else if d.sendMessageNonStreaming.isSome then .nonStreamingMethod
  else .streamingMethod

/-- The driver method `QueryRouter._execute_decoy_query` invokes: the same
branching as the real query ("CRITICAL: Use identical request pattern as real
query"), the response being discarded. -/
def decoy_send_method {Raw : Type} (d : Driver Raw) (streaming : Bool) : DriverMethod :=
  if streaming then .streamingMethod
  else if d.sendMessageNonStreaming.isSome then .nonStreamingMethod
  else .streamingMethod

/-- Observable record of one of the `M` tasks launched by
`_send_with_temporal_mixing`: the pre-shuffle index (`shuffled_index`), the
prompt sent, and the driver method used. -/
structure LaunchedQuery where
  originalIndex : Nat
  prompt : String
  method : DriverMethod
deriving DecidableEq, Repr

/-- A value of the `temporal_mixing` metadata dict. -/
inductive MetaVal
  | boolVal (b : Bool)
  | natVal (n : Nat)
deriving DecidableEq, Repr

/-- What `_send_with_temporal_mixing` produces: the awaited real response, the
`temporal_mixing` metadata dict merged into it, and the list of launched
queries in launch order. -/
structure MixingOutcome (Raw : Type) where
  response : RegResult Raw
  temporal_mixing : List (String × MetaVal)
  trace : List LaunchedQuery
deriving DecidableEq

/-- The task-creation loop of `_send_with_temporal_mixing`: one task per entry
of the shuffled `query_indices`, each over a fresh driver instance created
from the same `(provider, model_tag, api_key)` (hence behaviourally `d`).
`none` models the `IndexError` a stray index would raise. -/
def launch_queries {Raw : Type} (d : Driver Raw) (all_prompts : List String)
    (streaming : Bool) : List Nat → Option (List LaunchedQuery)
  | [] => some []
  | s :: rest =>
    match all_prompts.get? s, launch_queries d all_prompts streaming rest with
    | some p, some ts =>
      some ({ originalIndex := s, prompt := p,
              method := if s = 0 then regular_send_method d streaming
                        else decoy_send_method d streaming } :: ts)
    | _, _ => none

/-- The `real_task_index` computed by the loop: the variable is overwritten on
every hit, so the last position holding pre-shuffle index `0` wins; `none`
models the `query_tasks[None]` crash when `0` never occurs. -/
def find_real_task_index : List Nat → Option Nat
  | [] => none
  | s :: rest =>
    match find_real_task_index rest with
    | some j => some (j + 1)
    | none => if s = 0 then some 0 else none

/-- Embeds `QueryRouter._send_with_temporal_mixing` given the shuffle outcome
`query_indices` (`secure_shuffle` permutes `list(range(len(all_prompts)))`
in place).  Awaits only the real task and attaches
`{"active": True, "total_queries": M}`. -/
def send_with_temporal_mixing {Raw : Type} (d : Driver Raw) (real_prompt : String)
    (decoy_prompts : List String) (streaming : Bool) (query_indices : List Nat) :
    Option (MixingOutcome Raw) :=
  let total_queries := decoy_prompts.length + 1
  let all_prompts := real_prompt :: decoy_prompts
  match launch_queries d all_prompts streaming query_indices with
  | none => none
  | some tasks =>
    match find_real_task_index query_indices with
    | none => none
    | some i =>
      match tasks.get? i with
      | none => none
      | some t =>
        if t.originalIndex = 0 then
          some { response := send_regular_message d t.prompt streaming,
                 temporal_mixing := [("active", .boolVal true),
                                     ("total_queries", .natVal total_queries)],
                 trace := tasks }
        else none

/-! ### Obfuscation service (`backend/shared/services/obfuscation/obfuscation.py`) -/

/-- An OpenAI-format message. -/
structure ChatMessage where
  role : String
  content : String
deriving DecidableEq, Repr

/-- A stored reversal mapping (`self._obfuscation_mappings[mapping_id]`). -/
structure ObfMapping where
  session_id : String
  original : List ChatMessage
  obfuscated : List ChatMessage
  timestamp : Nat
deriving DecidableEq

/-- The mutable state of `ObfuscationService`; timestamps are naturals
(monotone event-loop seconds). -/
structure ObfState where
  mappings : List (String × ObfMapping)
  mapping_ttl : Nat
  last_cleanup : Nat
deriving DecidableEq

/-- Embeds `ObfuscationService._cleanup_expired_mappings`: a no-op within 5 minutes of
the previous cleanup, otherwise drops mappings older than the TTL. -/
def cleanup_expired_mappings (st : ObfState) (now : Nat) : ObfState :=
  if now - st.last_cleanup < 300 then st
  else
    { st with
      mappings := st.mappings.filter (fun p => decide (now - p.2.timestamp ≤ st.mapping_ttl)),
      last_cleanup := now }

/-- Embeds `ObfuscationService.obfuscate_messages`: rebuilds each message from its
`role` and (untransformed placeholder) `content`, and when a session id is
given stores the reversal mapping under a fresh `mapping_id` and runs the
periodic cleanup. -/
def obfuscate_messages (st : ObfState) (messages : List ChatMessage)
    (session_id : Option String) (mapping_id : String) (now : Nat) :
    List ChatMessage × ObfState :=
  let obfuscated := messages.map (fun m => { role := m.role, content := m.content })
  match session_id with
  | some sid =>
    (obfuscated,
      cleanup_expired_mappings
        { st with mappings := st.mappings ++
            [(mapping_id, { session_id := sid, original := messages,
                            obfuscated := obfuscated, timestamp := now })] } now)
  | none => (obfuscated, st)

/-- Embeds `ObfuscationService.deobfuscate_response`: runs the periodic cleanup and
returns a copy of the response dict unchanged (placeholder inverse). -/
def deobfuscate_response (st : ObfState) (response : List (String × String))
    (now : Nat) : List (String × String) × ObfState :=
  (response, cleanup_expired_mappings st now)

/-! ### Session manager and single-turn completion
(`backend/shared/services/session/session_manager.py`,
`backend/shared/services/session/turn_completion.py`)

Redis is modelled as explicit association lists keyed by the string id used
in the corresponding `endpoint:<id>` / `session_endpoints:<id>` /
`session_state:<id>` keys.  TTLs are not modelled (every claim concerns a
single pass well inside the 1 h TTL).  The reply of
`KeyClient.select_keys_for_session` is a parameter (`none` models the
client's `None` failure return), as are the coarse timestamp, hour bucket and
ISO creation time that the `async_time` helpers sample. -/

/-- Association-list read, the model of a Redis `GET` on a namespaced key. -/
def aget {α : Type _} : List (String × α) → String → Option α
  | [], _ => none
  | (k, v) :: rest, key => if k = key then some v else aget rest key

/-- Association-list write, the model of a Redis `SET`. -/
def aset {α : Type _} (l : List (String × α)) (key : String) (v : α) :
    List (String × α) :=
  (key, v) :: l.filter (fun p => decide (p.1 ≠ key))

/-- Association-list delete, the model of a Redis `DELETE`. -/
def adel {α : Type _} (l : List (String × α)) (key : String) : List (String × α) :=
  l.filter (fun p => decide (p.1 ≠ key))

/-- The full endpoint record stored under `endpoint:<id>` by
`_store_session_endpoints_with_keys` (including the api key). -/
structure EndpointRecord where
  id : String
  provider : String
  model : String
  api_key : String
  tokens_hour : Nat
  tokens_total : Nat
  status : String
  session_id : String
  created_at : String
deriving DecidableEq, Repr

/-- One element of the externally visible candidate list stored under
`session_endpoints:<id>` (without the api key). -/
structure CandidateEntry where
  id : String
  name : String
  provider : String
  model_tag : String
  models_accessible : String
  usage_load : String
  status : String
  token_usage_hour : Nat
  token_usage_total : Nat
  api_key_hash : String
deriving DecidableEq, Repr, Inhabited

/-- The pydantic `SessionState` of `backend/shared/models/internal.py`. -/
structure WebSessionState where
  session_id : String
  user_id : Nat
  selected_models : List String
  current_provider : String
  current_model : String
  endpoint_id : Option String
  api_key_hash : Option String
  created_at : String
  status : String
deriving DecidableEq, Repr

/-- The web server's Redis contents relevant to session management. -/
structure WebStore where
  endpoints : List (String × EndpointRecord)
  session_endpoints : List (String × List CandidateEntry)
  sessions : List (String × WebSessionState)
deriving DecidableEq

/-- Environment values sampled by the `async_time` helpers during one call. -/
structure TimeEnv where
  timestamp : Nat
  hour_bucket : String
  created_at : String
deriving DecidableEq, Repr

/-- Embeds `SessionManager._get_usage_load`. -/
def get_usage_load (tokens_hour : Nat) : String :=
  if tokens_hour = 0 then "idle"
  else if tokens_hour < 1000 then "light"
  else if tokens_hour < 5000 then "moderate"
  else "heavy"

/-- Embeds `SessionManager.get_session` (a `GET` of `session_state:<id>`). -/
def get_session (st : WebStore) (session_id : String) : Option WebSessionState :=
  aget st.sessions session_id

/-- Embeds `SessionManager._store_session_state`. -/
def store_session_state (st : WebStore) (s : WebSessionState) : WebStore :=
  { st with sessions := aset st.sessions s.session_id s }

/-- Embeds `SessionManager.get_session_endpoints` (absent list read as `[]`). -/
def get_session_endpoints (st : WebStore) (session_id : String) : List CandidateEntry :=
  (aget st.session_endpoints session_id).getD []

/-- The endpoint record `_store_session_endpoints_with_keys` builds for one
selected key. -/
def endpoint_record_of (session_id : String) (env : TimeEnv) (k : SelectedKey) :
    EndpointRecord :=
  { id := generate_endpoint_id k.provider k.model k.key_id (some session_id) env.timestamp,
    provider := k.provider, model := k.model, api_key := k.api_key,
    tokens_hour := k.tokens_hour, tokens_total := k.tokens_total,
    status := k.status, session_id := session_id, created_at := env.created_at }

/-- The externally visible candidate entry `_store_session_endpoints_with_keys`
builds for one selected key. -/
def candidate_entry_of (session_id : String) (env : TimeEnv) (k : SelectedKey) :
    CandidateEntry :=
  let eid := generate_endpoint_id k.provider k.model k.key_id (some session_id) env.timestamp
  { id := eid, name := "endpoint-" ++ stringTake eid 8,
    provider := k.provider, model_tag := k.model, models_accessible := k.model,
    usage_load := get_usage_load k.tokens_hour, status := k.status,
    token_usage_hour := k.tokens_hour, token_usage_total := k.tokens_total,
    api_key_hash := generate_session_specific_api_key_hash k.key_id session_id env.hour_bucket }

/-- Embeds `SessionManager._store_session_endpoints_with_keys`: stores each full
endpoint record under its id, then stores the candidate list. -/
def store_session_endpoints_with_keys (st : WebStore) (session_id : String)
    (selected_keys : List SelectedKey) (env : TimeEnv) : WebStore :=
  let st1 := selected_keys.foldl
    (fun acc k =>
      let epRec := endpoint_record_of session_id env k
      { acc with endpoints := aset acc.endpoints epRec.id epRec })
    st
  let entries := selected_keys.map (candidate_entry_of session_id env)
  { st1 with session_endpoints := aset st1.session_endpoints session_id entries }

/-- Embeds `SessionManager.update_session_models` with the key-client reply `alloc`
passed in (`none` models the client returning `None` after an RPC failure). -/
def update_session_models (st : WebStore) (session_id : String)
    (new_selected_models : List String) (alloc : Option (List SelectedKey))
    (env : TimeEnv) : WebStore × Except String (Bool × String) :=
  match get_session st session_id with
  | none => (st, .error ("Session " ++ session_id ++ " not found"))
  | some s0 =>
    let s1 := { s0 with selected_models := new_selected_models }
    let disconnectByModel :=
      s1.current_provider ≠ "" ∧ s1.current_model ≠ "" ∧
        (s1.current_provider ++ "/" ++ s1.current_model) ∉ new_selected_models
    let s2 := if disconnectByModel then
        { s1 with current_provider := "", current_model := "",
                  endpoint_id := none, api_key_hash := none }
      else s1
    let allocEmpty := alloc.getD [] = []
    let s3 := if allocEmpty then
        { s2 with current_provider := "", current_model := "",
                  endpoint_id := none, api_key_hash := none }
      else s2
    let needs_disconnection := decide disconnectByModel || decide allocEmpty
    let selected_keys := alloc.getD []
    let st1 := store_session_endpoints_with_keys st session_id selected_keys env
    let st2 := store_session_state st1 s3
    let message :=
      if needs_disconnection && decide (selected_keys = []) then
        "No endpoints available for selected models. Session disconnected."
      else if needs_disconnection then
        "Current endpoint removed from selection. Session disconnected. " ++
          toString selected_keys.length ++ " new endpoints available."
      else
        "Session models updated. " ++ toString selected_keys.length ++ " endpoints available."
    (st2, .ok (needs_disconnection, message))

/-- The tuple `choose_session_endpoint` returns. -/
structure ChosenEndpoint where
  provider : String
  model : String
  endpoint_id : String
  api_key_hash : String
deriving DecidableEq, Repr

/-- The tail of `SessionManager.choose_session_endpoint` after an endpoint
entry has been selected: fetch the session state and write the binding. -/
def choose_session_endpoint_bind (st : WebStore) (session_id : String)
    (ep : CandidateEntry) : WebStore × Except String ChosenEndpoint :=
  match get_session st session_id with
  | none => (st, .error ("Session " ++ session_id ++ " not found"))
  | some s =>
    let s' := { s with current_provider := ep.provider,
                       current_model := ep.models_accessible,
                       endpoint_id := some ep.id,
                       api_key_hash := some ep.api_key_hash }
    (store_session_state st s',
      .ok { provider := ep.provider, model := ep.models_accessible,
            endpoint_id := ep.id, api_key_hash := ep.api_key_hash })

/-- Embeds `SessionManager.choose_session_endpoint`: `pick` is the index
`secrets.randbelow(len(choices))` drawn by `secure_choice` when no endpoint id
is given.  Every error path raises before the session state is written. -/
def choose_session_endpoint (st : WebStore) (session_id : String)
    (endpoint_id : Option String) (pick : Nat) : WebStore × Except String ChosenEndpoint :=
  let session_endpoints := get_session_endpoints st session_id
  if session_endpoints = [] then
    (st, .error ("No endpoints available for session " ++ session_id))
  else
    match endpoint_id with
    | some eid =>
      match session_endpoints.find? (fun ep => ep.id == eid) with
      | none => (st, .error ("Endpoint " ++ eid ++ " not available for this session"))
      | some ep => choose_session_endpoint_bind st session_id ep
    | none =>
      choose_session_endpoint_bind st session_id
        (session_endpoints.getD pick default)

/-- Embeds `TurnCompletionService._invalidate_session_endpoints`: delete every
`endpoint:<id>` named in the candidate list, then delete the list itself. -/
def invalidate_session_endpoints (st : WebStore) (session_id : String) : WebStore :=
  let session_endpoints := get_session_endpoints st session_id
  let st1 := session_endpoints.foldl
    (fun acc ep => { acc with endpoints := adel acc.endpoints ep.id }) st
  { st1 with session_endpoints := adel st1.session_endpoints session_id }

/-- The dictionary `TurnCompletionService.complete_single_turn` returns. -/
structure CompletionResult where
  success : Bool
  new_endpoints : List CandidateEntry
  auto_selected : Option ChosenEndpoint
  message : String
deriving DecidableEq

/-- Embeds `TurnCompletionService.complete_single_turn`: invalidate the old
candidates, clear the binding, and when models are selected regenerate via
`update_session_models` and auto-select one entry at random (`pick`); a failed
auto-selection is swallowed (`auto_selected := none`). -/
def complete_single_turn (st : WebStore) (session_id : String)
    (alloc : Option (List SelectedKey)) (env : TimeEnv) (pick : Nat) :
    WebStore × CompletionResult :=
  match get_session st session_id with
  | none =>
    (st, { success := false, new_endpoints := [], auto_selected := none,
           message := "Session not found" })
  | some s =>
    let current_models := s.selected_models
    let st1 := invalidate_session_endpoints st session_id
    let s2 := { s with endpoint_id := none, current_provider := "",
                       current_model := "", api_key_hash := none }
    let st2 := store_session_state st1 s2
    if current_models = [] then
      (st2, { success := true, new_endpoints := [], auto_selected := none,
              message := "Single-turn completed. No models selected for regeneration." })
    else
      match update_session_models st2 session_id current_models alloc env with
      | (st3, .error e) =>
        (st3, { success := false, new_endpoints := [], auto_selected := none,
                message := "Single-turn completion failed: " ++ e })
      | (st3, .ok _) =>
        let new_endpoints := get_session_endpoints st3 session_id
        let picked :=
          if new_endpoints = [] then (st3, none)
          else
            match choose_session_endpoint st3 session_id none pick with
            | (st4, .ok res) => (st4, some res)
            | (st4, .error _) => (st4, none)
        (picked.1,
          { success := true, new_endpoints := new_endpoints,
            auto_selected := picked.2,
            message := "Single-turn completed. " ++ toString new_endpoints.length ++
              " new endpoints available." })

/-! ### Concrete fixtures used by witnesses and counterexamples -/

/-- A concrete candidate entry. -/
def sampleCandidate : CandidateEntry :=
  { id := "e1", name := "endpoint-e1", provider := "openai", model_tag := "gpt-4o",
    models_accessible := "gpt-4o", usage_load := "idle", status := "Available",
    token_usage_hour := 0, token_usage_total := 0, api_key_hash := "h1" }

/-- A concrete stored endpoint record. -/
def sampleEndpointRecord : EndpointRecord :=
  { id := "e1", provider := "openai", model := "gpt-4o", api_key := "sk-secret",
    tokens_hour := 0, tokens_total := 0, status := "Available",
    session_id := "s1", created_at := "t0" }

/-- A concrete bound session. -/
def sampleSessionState : WebSessionState :=
  { session_id := "s1", user_id := 1, selected_models := ["openai/gpt-4o"],
    current_provider := "openai", current_model := "gpt-4o",
    endpoint_id := some "e1", api_key_hash := some "h1",
    created_at := "t0", status := "active" }

/-- A concrete web store holding the session, its candidate list and the
backing endpoint record. -/
def sampleStore : WebStore :=
  { endpoints := [("e1", sampleEndpointRecord)],
    session_endpoints := [("s1", [sampleCandidate])],
    sessions := [("s1", sampleSessionState)] }

/-- A concrete selected-key reply from the key allocator. -/
def sampleKey : SelectedKey :=
  { key_id := "k1", provider := "openai", model := "gpt-4o", api_key := "sk-secret",
    tokens_hour := 0, tokens_total := 0, status := "Available" }

/-- A concrete time environment. -/
def sampleTimeEnv : TimeEnv :=
  { timestamp := 1700000000, hour_bucket := "472222", created_at := "t1" }

/-!
Theorems.

Helper lemmas first (shared across claims), then the claim theorems, each
preceded by a doc comment naming its claim.
-/

section SortPosition

variable {α : Type _} [DecidableEq α] {le : α → α → Prop} [DecidableRel le]

theorem posIn_cons_self (k : α) (l : List α) : posIn k (k :: l) = 0 := by
  simp [posIn]

theorem posIn_cons_ne {x k : α} (h : x ≠ k) (l : List α) :
    posIn k (x :: l) = posIn k l + 1 := by
  simp [posIn, h]

theorem posIn_orderedInsert_self [IsTrans α le] {s : List α} (hs : List.Sorted le s)
    {k : α} (hk : k ∉ s) :
    posIn k (s.orderedInsert le k) = s.countP (fun y => decide (¬ le k y)) := by
  induction s with
  | nil => simp [posIn]
  | cons y ys ih =>
    simp only [List.orderedInsert]
    by_cases h : le k y
    · rw [if_pos h, posIn_cons_self]
      symm
      rw [List.countP_eq_zero]
      intro a ha
      rcases List.mem_cons.1 ha with rfl | hmem
      · simp [h]
      · have : le k a := IsTrans.trans _ _ _ h (List.rel_of_sorted_cons hs _ hmem)
        simp [this]
    · rw [if_neg h]
      have hyk : y ≠ k := fun e => hk (e ▸ List.mem_cons_self y ys)
      rw [posIn_cons_ne hyk,
        ih (List.sorted_cons.1 hs).2 (fun hm => hk (List.mem_cons_of_mem _ hm)),
        List.countP_cons]
      simp [h]

theorem posIn_orderedInsert_other [IsTrans α le] {s : List α} (hs : List.Sorted le s)
    {j k : α} (hjk : j ≠ k) (hk : k ∈ s) :
    posIn k (s.orderedInsert le j) = posIn k s + if le j k then 1 else 0 := by
  induction s with
  | nil => cases hk
  | cons y ys ih =>
    simp only [List.orderedInsert]
    by_cases h : le j y
    · rw [if_pos h, posIn_cons_ne hjk]
      have hljk : le j k := by
        rcases List.mem_cons.1 hk with rfl | hmem
        · exact h
        · exact IsTrans.trans _ _ _ h (List.rel_of_sorted_cons hs _ hmem)
      rw [if_pos hljk]
    · rw [if_neg h]
      by_cases hyk : y = k
      · subst hyk
        rw [posIn_cons_self, posIn_cons_self, if_neg h]
      · have hk' : k ∈ ys := by
          rcases List.mem_cons.1 hk with e | hm
          · exact absurd e.symm hyk
          · exact hm
        rw [posIn_cons_ne hyk, posIn_cons_ne hyk,
          ih (List.sorted_cons.1 hs).2 hk']
        rcases Decidable.em (le j k) with hc | hc
        · rw [if_pos hc]
        · rw [if_neg hc]

theorem posIn_insertionSort [IsTrans α le] [IsTotal α le] (pre : List α) {post : List α}
    {k : α} (hkpre : k ∉ pre) (hkpost : k ∉ post) :
    posIn k (List.insertionSort le (pre ++ k :: post)) =
      pre.countP (fun j => decide (le j k)) + post.countP (fun j => decide (¬ le k j)) := by
  induction pre with
  | nil =>
    simp only [List.nil_append, List.insertionSort]
    rw [posIn_orderedInsert_self (List.sorted_insertionSort le post)
      (by simpa using hkpost),
      (List.perm_insertionSort le post).countP_eq]
    simp
  | cons j pre ih =>
    simp only [List.cons_append, List.insertionSort, List.append_eq]
    have hjk : j ≠ k := fun e => hkpre (e ▸ List.mem_cons_self j pre)
    have hkmem : k ∈ List.insertionSort le (pre ++ k :: post) := by
      rw [List.mem_insertionSort]
      exact List.mem_append.2 (Or.inr (List.mem_cons_self _ _))
    rw [posIn_orderedInsert_other (List.sorted_insertionSort le _) hjk hkmem,
      ih (fun hm => hkpre (List.mem_cons_of_mem _ hm)),
      List.countP_cons]
    rcases Decidable.em (le j k) with hc | hc
    · rw [if_pos hc, if_pos (by simpa using hc)]
      omega
    · rw [if_neg hc, if_neg (by simpa using hc)]
      omega

theorem posIn_map_of_nodup {β : Type _} [DecidableEq β] (f : α → β) {l : List α} {x : α}
    (hx : x ∈ l) (hnd : (l.map f).Nodup) : posIn (f x) (l.map f) = posIn x l := by
  induction l with
  | nil => cases hx
  | cons y ys ih =>
    by_cases h : y = x
    · subst h
      simp [posIn]
    · have hxys : x ∈ ys := (List.mem_cons.1 hx).resolve_left (fun e => h e.symm)
      have hfy : f y ≠ f x := by
        intro e
        exact (List.nodup_cons.1 (List.map_cons f y ys ▸ hnd)).1
          (e ▸ List.mem_map_of_mem f hxys)
      rw [List.map_cons, posIn_cons_ne hfy, posIn_cons_ne h,
        ih hxys (List.nodup_cons.1 (List.map_cons f y ys ▸ hnd)).2]

end SortPosition

theorem mkWeighted_key_id (usage : String → Nat) (a : String) :
    (mkWeighted usage a).key_id = a := rfl

theorem map_key_map_mkWeighted (usage : String → Nat) (l : List String) :
    ((l.map (mkWeighted usage)).map WeightedKey.key_id) = l := by
  induction l with
  | nil => rfl
  | cons a t ih =>
    simp only [List.map_cons]
    rw [ih, mkWeighted_key_id]

theorem selectionOrder_perm (usage : String → Nat) (pool : List String) :
    (selectionOrder usage pool).Perm pool := by
  unfold selectionOrder
  have h := (List.perm_insertionSort selLE (pool.map (mkWeighted usage))).map
    WeightedKey.key_id
  rwa [map_key_map_mkWeighted] at h

theorem posIn_selectionOrder (usage : String → Nat) (pre post : List String) (k : String)
    (hnd : (pre ++ k :: post).Nodup) :
    posIn k (selectionOrder usage (pre ++ k :: post)) =
      (pre.map (mkWeighted usage)).countP
          (fun j => decide (selLE j (mkWeighted usage k))) +
        (post.map (mkWeighted usage)).countP
          (fun j => decide (¬ selLE (mkWeighted usage k) j)) := by
  have hknotin : k ∉ pre ++ post := (List.nodup_cons.1 (List.nodup_middle.1 hnd)).1
  have hkpre : k ∉ pre := fun hm => hknotin (List.mem_append.2 (Or.inl hm))
  have hkpost : k ∉ post := fun hm => hknotin (List.mem_append.2 (Or.inr hm))
  have hmapeq : (pre ++ k :: post).map (mkWeighted usage) =
      pre.map (mkWeighted usage) ++ mkWeighted usage k :: post.map (mkWeighted usage) := by
    rw [List.map_append, List.map_cons]
  have hwkpre : mkWeighted usage k ∉ pre.map (mkWeighted usage) := by
    intro hm
    obtain ⟨a, ha, he⟩ := List.mem_map.1 hm
    have hak : a = k := congrArg WeightedKey.key_id he
    exact hkpre (hak ▸ ha)
  have hwkpost : mkWeighted usage k ∉ post.map (mkWeighted usage) := by
    intro hm
    obtain ⟨a, ha, he⟩ := List.mem_map.1 hm
    have hak : a = k := congrArg WeightedKey.key_id he
    exact hkpost (hak ▸ ha)
  have hks : mkWeighted usage k ∈
      List.insertionSort selLE ((pre ++ k :: post).map (mkWeighted usage)) := by
    rw [List.mem_insertionSort, hmapeq]
    exact List.mem_append.2 (Or.inr (List.mem_cons_self _ _))
  have hndmap : ((List.insertionSort selLE
      ((pre ++ k :: post).map (mkWeighted usage))).map WeightedKey.key_id).Nodup := by
    have hperm := (List.perm_insertionSort selLE
      ((pre ++ k :: post).map (mkWeighted usage))).map WeightedKey.key_id
    rw [map_key_map_mkWeighted] at hperm
    exact hperm.nodup_iff.2 hnd
  have hmain := @posIn_insertionSort WeightedKey _ selLE _ _ _
    (pre.map (mkWeighted usage)) (post.map (mkWeighted usage))
    (mkWeighted usage k) hwkpre hwkpost
  calc posIn k (selectionOrder usage (pre ++ k :: post))
      = posIn (mkWeighted usage k).key_id
          ((List.insertionSort selLE
            ((pre ++ k :: post).map (mkWeighted usage))).map WeightedKey.key_id) := rfl
    _ = posIn (mkWeighted usage k)
          (List.insertionSort selLE ((pre ++ k :: post).map (mkWeighted usage))) :=
        posIn_map_of_nodup _ hks hndmap
    _ = _ := by rw [hmapeq] at *; exact hmain

theorem keyWeight_antitone {a b : Nat} (h : a ≤ b) : keyWeight b ≤ keyWeight a := by
  unfold keyWeight
  split_ifs <;> omega

theorem selLE_mono_right {j k0 k1 : WeightedKey} (hw : k0.weight ≤ k1.weight)
    (ht : k1.tokens_hour ≤ k0.tokens_hour) (h : selLE j k1) : selLE j k0 := by
  unfold selLE at *
  omega

theorem selLE_mono_left {j k0 k1 : WeightedKey} (hw : k0.weight ≤ k1.weight)
    (ht : k1.tokens_hour ≤ k0.tokens_hour) (h : selLE k0 j) : selLE k1 j := by
  unfold selLE at *
  omega

theorem selLE_of_eq {x y : WeightedKey} (hw : x.weight = y.weight)
    (ht : x.tokens_hour = y.tokens_hour) : selLE x y := by
  unfold selLE
  omega

theorem selLE_congr_left {x y j : WeightedKey} (hw : x.weight = y.weight)
    (ht : x.tokens_hour = y.tokens_hour) : selLE x j ↔ selLE y j := by
  unfold selLE
  omega

theorem selLE_congr_right {x y j : WeightedKey} (hw : x.weight = y.weight)
    (ht : x.tokens_hour = y.tokens_hour) : selLE j x ↔ selLE j y := by
  unfold selLE
  omega

theorem selLE_of_not_selLE {x y : WeightedKey} (h : ¬ selLE x y) : selLE y x := by
  unfold selLE at *
  omega

theorem posIn_selectionOrder_tie (usage : String → Nat) (pre mid post : List String)
    (a b : String) (hnd : (pre ++ a :: (mid ++ b :: post)).Nodup)
    (hw : keyWeight (usage a) = keyWeight (usage b)) (ht : usage a = usage b) :
    posIn a (selectionOrder usage (pre ++ a :: (mid ++ b :: post))) <
      posIn b (selectionOrder usage (pre ++ a :: (mid ++ b :: post))) := by
  have hA := posIn_selectionOrder usage pre (mid ++ b :: post) a hnd
  have hre : pre ++ a :: (mid ++ b :: post) = (pre ++ a :: mid) ++ b :: post := by
    simp
  have hndB : ((pre ++ a :: mid) ++ b :: post).Nodup := hre ▸ hnd
  have hB := posIn_selectionOrder usage (pre ++ a :: mid) post b hndB
  rw [← hre] at hB
  rw [hA, hB]
  simp only [List.map_append, List.map_cons, List.countP_append, List.countP_cons]
  have hwm : (mkWeighted usage a).weight = (mkWeighted usage b).weight := hw
  have htm : (mkWeighted usage a).tokens_hour = (mkWeighted usage b).tokens_hour := ht
  have f3 : selLE (mkWeighted usage a) (mkWeighted usage b) := selLE_of_eq hwm htm
  have e1 : (pre.map (mkWeighted usage)).countP
        (fun j => decide (selLE j (mkWeighted usage a))) =
      (pre.map (mkWeighted usage)).countP
        (fun j => decide (selLE j (mkWeighted usage b))) :=
    List.countP_congr (fun x _ => by
      simp only [decide_eq_true_eq]
      exact selLE_congr_right hwm htm)
  have e2 : (post.map (mkWeighted usage)).countP
        (fun j => decide (¬ selLE (mkWeighted usage a) j)) =
      (post.map (mkWeighted usage)).countP
        (fun j => decide (¬ selLE (mkWeighted usage b) j)) :=
    List.countP_congr (fun x _ => by
      simp only [decide_eq_true_eq]
      exact not_congr (selLE_congr_left hwm htm))
  have e3 : (mid.map (mkWeighted usage)).countP
        (fun j => decide (¬ selLE (mkWeighted usage a) j)) ≤
      (mid.map (mkWeighted usage)).countP
        (fun j => decide (selLE j (mkWeighted usage b))) :=
    List.countP_mono_left (fun x _ hx => by
      simp only [decide_eq_true_eq] at hx ⊢
      exact (selLE_congr_right hwm htm).1 (selLE_of_not_selLE hx))
  have hb1 : (decide (¬ selLE (mkWeighted usage a) (mkWeighted usage b))) = false := by
    simp [f3]
  have hb2 : (decide (selLE (mkWeighted usage a) (mkWeighted usage b))) = true := by
    simp [f3]
  rw [hb1, hb2]
  simp only [if_true, if_false, Bool.false_eq_true]
  omega

/-- C6: key-selection monotonicity.  For a fixed pool (with its enumeration
order) and fixed hourly counters for every other key, decreasing one key's
hourly token counter never moves that key to a later (worse) position in the
selection order computed by `_intelligent_key_selection`. -/
theorem key_selection_rank_monotone (usage usage' : String → Nat) (pool : List String)
    (k : String) (hnd : pool.Nodup) (hk : k ∈ pool) (hdec : usage' k ≤ usage k)
    (hothers : ∀ j, j ≠ k → usage' j = usage j) :
    posIn k (selectionOrder usage' pool) ≤ posIn k (selectionOrder usage pool) := by
  obtain ⟨pre, post, rfl⟩ := List.append_of_mem hk
  have hknotin : k ∉ pre ++ post := (List.nodup_cons.1 (List.nodup_middle.1 hnd)).1
  have hkpre : k ∉ pre := fun hm => hknotin (List.mem_append.2 (Or.inl hm))
  have hkpost : k ∉ post := fun hm => hknotin (List.mem_append.2 (Or.inr hm))
  rw [posIn_selectionOrder usage pre post k hnd,
    posIn_selectionOrder usage' pre post k hnd]
  have hpre : pre.map (mkWeighted usage') = pre.map (mkWeighted usage) :=
    List.map_congr_left (fun x hx => by
      unfold mkWeighted
      rw [hothers x (fun e => hkpre (e ▸ hx))])
  have hpost : post.map (mkWeighted usage') = post.map (mkWeighted usage) :=
    List.map_congr_left (fun x hx => by
      unfold mkWeighted
      rw [hothers x (fun e => hkpost (e ▸ hx))])
  rw [hpre, hpost]
  have hw : (mkWeighted usage k).weight ≤ (mkWeighted usage' k).weight :=
    keyWeight_antitone hdec
  have ht : (mkWeighted usage' k).tokens_hour ≤ (mkWeighted usage k).tokens_hour := hdec
  apply Nat.add_le_add
  · apply List.countP_mono_left
    intro x _ hx
    simp only [decide_eq_true_eq] at hx ⊢
    exact selLE_mono_right hw ht hx
  · apply List.countP_mono_left
    intro x _ hx
    simp only [decide_eq_true_eq] at hx ⊢
    exact fun hle => hx (selLE_mono_left hw ht hle)

theorem key_selection_rank_monotone_witness :
    posIn "a" (selectionOrder (fun _ => 0) ["a", "b"]) ≤
      posIn "a" (selectionOrder (fun s => if s = "a" then 5000 else 0) ["a", "b"]) :=
  key_selection_rank_monotone (fun s => if s = "a" then 5000 else 0) (fun _ => 0)
    ["a", "b"] "a" (by decide) (by decide) (by decide)
    (fun j hj => by simp [hj])

/-- C3 (amended): `_intelligent_key_selection` assigns weights by the piecewise
function, stable-sorts by (weight descending, hourly tokens ascending) and
returns the first `count` ids — but ties in both weight and hourly tokens are
broken by the pool's enumeration order (Python's sort is stable), not by key id
lexicographically. -/
theorem intelligent_key_selection_spec (usage : String → Nat) (pool : List String)
    (count : Nat) (hnd : pool.Nodup) :
    intelligent_key_selection usage pool count = (selectionOrder usage pool).take count
    ∧ (selectionOrder usage pool).Perm pool
    ∧ List.Sorted (fun x y => selLE (mkWeighted usage x) (mkWeighted usage y))
        (selectionOrder usage pool)
    ∧ ∀ pre mid post a b, pool = pre ++ a :: (mid ++ b :: post) →
        keyWeight (usage a) = keyWeight (usage b) → usage a = usage b →
        posIn a (selectionOrder usage pool) < posIn b (selectionOrder usage pool) := by
  refine ⟨rfl, selectionOrder_perm usage pool, ?_, ?_⟩
  · unfold selectionOrder
    have hsorted := List.sorted_insertionSort selLE (pool.map (mkWeighted usage))
    rw [List.Sorted, List.pairwise_map]
    apply List.Pairwise.imp_of_mem ?_ hsorted
    intro x y hx hy hxy
    have hxe : mkWeighted usage x.key_id = x := by
      obtain ⟨j, _, he⟩ := List.mem_map.1 ((List.mem_insertionSort _).1 hx)
      rw [← he]
      rfl
    have hye : mkWeighted usage y.key_id = y := by
      obtain ⟨j, _, he⟩ := List.mem_map.1 ((List.mem_insertionSort _).1 hy)
      rw [← he]
      rfl
    rw [hxe, hye]
    exact hxy
  · intro pre mid post a b hpool hw ht
    subst hpool
    exact posIn_selectionOrder_tie usage pre mid post a b hnd hw ht

theorem intelligent_key_selection_spec_witness :
    intelligent_key_selection (fun _ => 0) ["b", "a"] 1 =
        (selectionOrder (fun _ => 0) ["b", "a"]).take 1
    ∧ (selectionOrder (fun _ => 0) ["b", "a"]).Perm ["b", "a"]
    ∧ List.Sorted (fun x y => selLE (mkWeighted (fun _ => 0) x) (mkWeighted (fun _ => 0) y))
        (selectionOrder (fun _ => 0) ["b", "a"])
    ∧ ∀ pre mid post a b, ["b", "a"] = pre ++ a :: (mid ++ b :: post) →
        keyWeight 0 = keyWeight 0 → (0 : Nat) = 0 →
        posIn a (selectionOrder (fun _ => 0) ["b", "a"]) <
          posIn b (selectionOrder (fun _ => 0) ["b", "a"]) :=
  intelligent_key_selection_spec (fun _ => 0) ["b", "a"] 1 (by decide)

/-- C3 counterexample: the source sort key is `(-weight, tokens_hour)` with no
lexicographic component; with two tied keys enumerated as `["b", "a"]` the
stable sort keeps `"b"` first, while the spec's lexicographic tie-break would
select `"a"`. -/
theorem intelligent_key_selection_not_lexicographic :
    intelligent_key_selection (fun _ => 0) ["b", "a"] 1 ≠
      spec_key_selection (fun _ => 0) ["b", "a"] 1 := by
  decide

theorem select_for_model_not_servable (st : KeyServerState) (c : Nat) (ms : String)
    (h : requestServable st ms = false) : select_for_model st c ms = [] := by
  unfold select_for_model
  by_cases h1 : stringHasChar ms '/'
  · by_cases h2 : stringTrim (splitFirstSlash ms).1 = "" ∨ stringTrim (splitFirstSlash ms).2 = ""
    · simp [h1, h2]
    · by_cases h3 : st.pools (stringTrim (splitFirstSlash ms).1)
          (stringTrim (splitFirstSlash ms).2) = []
      · simp [h1, h2, h3]
      · exfalso
        rw [requestServable] at h
        simp [h1, h2, h3] at h
  · simp [h1]

/-- C7 (amended): a requested `provider/model` whose pool is empty (or which
does not parse) is skipped without any error; `select_keys_for_session`
returns the partial list accumulated from the remaining requested models —
possibly empty — and never signals `no-keys` itself. -/
theorem select_keys_partial_on_empty_pool (st : KeyServerState) (models : List String)
    (count_per_model : Nat) :
    (∀ ms ∈ models, requestServable st ms = false →
      select_for_model st count_per_model ms = [])
    ∧ select_keys_for_session st models count_per_model =
        select_keys_for_session st (models.filter (requestServable st)) count_per_model := by
  refine ⟨fun ms _ h => select_for_model_not_servable st count_per_model ms h, ?_⟩
  induction models with
  | nil => rfl
  | cons ms rest ih =>
    unfold select_keys_for_session
    simp only [List.filter_cons, List.map_cons, List.flatten_cons]
    by_cases h : requestServable st ms
    · rw [if_pos h]
      simp only [List.map_cons, List.flatten_cons]
      unfold select_keys_for_session at ih
      rw [ih]
    · rw [if_neg h,
        select_for_model_not_servable st count_per_model ms (by simpa using h)]
      unfold select_keys_for_session at ih
      rw [List.nil_append, ih]

/-- C7 counterexample: with the requested `openai/gpt-4o` pool empty, the call
does not fail with a `no-keys` error — it returns the (non-empty) partial list
drawn from the other requested model's pool. -/
theorem select_keys_empty_pool_returns_partial :
    ({ pools := fun p m => if p = "anthropic" ∧ m = "claude" then ["k1"] else [],
       vault := fun _ _ _ => some "sk-secret",
       usage := fun _ => 0, totals := fun _ => 0 } : KeyServerState).pools
        "openai" "gpt-4o" = []
    ∧ select_keys_for_session
        { pools := fun p m => if p = "anthropic" ∧ m = "claude" then ["k1"] else [],
          vault := fun _ _ _ => some "sk-secret",
          usage := fun _ => 0, totals := fun _ => 0 }
        ["openai/gpt-4o", "anthropic/claude"] 2 =
      [{ key_id := "k1", provider := "anthropic", model := "claude",
         api_key := "sk-secret", tokens_hour := 0, tokens_total := 0,
         status := "Available" }] := by
  decide

theorem string_data_inj {s t : String} (h : s.data = t.data) : s = t := by
  cases s
  cases t
  exact congrArg String.mk h

/-- C5 counterexample: the session salt is only `session_id[:8]`, so two
different sessions whose ids share their first 8 characters produce identical
endpoint ids for the same provider, model, key id and coarse timestamp —
the ids differ in zero hex positions. -/
theorem endpoint_id_same_prefix_collision :
    ("aaaaaaaa1" : String) ≠ "aaaaaaaa2"
    ∧ generate_endpoint_id "openai" "gpt-4o" "k1" (some "aaaaaaaa1") 1700000000 =
        generate_endpoint_id "openai" "gpt-4o" "k1" (some "aaaaaaaa2") 1700000000 := by
  constructor
  · decide
  · unfold generate_endpoint_id
    have h : endpoint_hash_input "openai" "gpt-4o" "k1" 1700000000 (some "aaaaaaaa1") =
        endpoint_hash_input "openai" "gpt-4o" "k1" 1700000000 (some "aaaaaaaa2") := by
      decide
    rw [h]

/-- C5 (amended): the endpoint id is `SHA256(provider:model:key_id:timestamp:
session_id[:8])` truncated to 20 hex characters, and for a fixed provider,
model, key id and coarse timestamp, two sessions whose ids differ within their
first 8 characters feed different inputs to SHA-256 (whereas sessions agreeing
on the first 8 characters get the identical id, per the counterexample). -/
theorem endpoint_id_salting (provider model key_id sid1 sid2 : String) (t : Nat)
    (h : stringTake sid1 8 ≠ stringTake sid2 8) :
    generate_endpoint_id provider model key_id (some sid1) t =
      stringTake (sha256hex (provider ++ ":" ++ model ++ ":" ++ key_id ++ ":" ++
        toString t ++ ":" ++ stringTake sid1 8)) 20
    ∧ endpoint_hash_input provider model key_id t (some sid1) ≠
        endpoint_hash_input provider model key_id t (some sid2) := by
  constructor
  · rfl
  · intro he
    apply h
    have he' : (provider ++ ":" ++ model ++ ":" ++ key_id ++ ":" ++ toString t ++ ":") ++
          stringTake sid1 8 =
        (provider ++ ":" ++ model ++ ":" ++ key_id ++ ":" ++ toString t ++ ":") ++
          stringTake sid2 8 := he
    have hdata := congrArg String.data he'
    rw [String.data_append, String.data_append] at hdata
    exact string_data_inj (List.append_cancel_left hdata)

theorem endpoint_id_salting_witness :
    (generate_endpoint_id "openai" "gpt-4o" "k1" (some "aaaaaaaa1") 1700000000 =
      stringTake (sha256hex ("openai" ++ ":" ++ "gpt-4o" ++ ":" ++ "k1" ++ ":" ++
        toString 1700000000 ++ ":" ++ stringTake "aaaaaaaa1" 8)) 20)
    ∧ endpoint_hash_input "openai" "gpt-4o" "k1" 1700000000 (some "aaaaaaaa1") ≠
        endpoint_hash_input "openai" "gpt-4o" "k1" 1700000000 (some "baaaaaaa2") :=
  endpoint_id_salting "openai" "gpt-4o" "k1" "aaaaaaaa1" "baaaaaaa2" 1700000000 (by decide)

/-- Validation of the SHA-256 embedding on the standard empty-message test
vector. -/
theorem sha256hex_empty_vector :
    sha256hex "" = "e3b0c44298fc1c149afbf4c8996fb92427ae41e4649b934ca495991b7852b855" := by
  decide

/-- Validation of the SHA-256 embedding on the standard "abc" test vector. -/
theorem sha256hex_abc_vector :
    sha256hex "abc" = "ba7816bf8f01cfea414140de5dae2223b00361a396177a9cb410ff61f20015ad" := by
  decide

theorem launch_queries_eq_map {Raw : Type} (d : Driver Raw) (ap : List String)
    (streaming : Bool) :
    ∀ (qs : List Nat), (∀ s ∈ qs, s < ap.length) →
    launch_queries d ap streaming qs = some (qs.map (fun s =>
      { originalIndex := s, prompt := ap.getD s "",
        method := if s = 0 then regular_send_method d streaming
                  else decoy_send_method d streaming }))
  | [], _ => rfl
  | s :: rest, h => by
    unfold launch_queries
    have hs : s < ap.length := h s (List.mem_cons_self s rest)
    have hget : ap.get? s = some (ap.getD s "") := by
      rw [List.getD_eq_getElem?_getD, List.get?_eq_getElem?,
        List.getElem?_eq_getElem hs]
      rfl
    rw [hget, launch_queries_eq_map d ap streaming rest
      (fun x hx => h x (List.mem_cons_of_mem s hx))]
    rfl

theorem find_real_task_index_sound :
    ∀ (qs : List Nat) (i : Nat), find_real_task_index qs = some i → qs.get? i = some 0
  | [], i => by simp [find_real_task_index]
  | s :: rest, i => by
    unfold find_real_task_index
    cases hf : find_real_task_index rest with
    | some j =>
      intro h
      have hij : i = j + 1 := (Option.some_inj.1 h).symm
      subst hij
      rw [List.get?_cons_succ]
      exact find_real_task_index_sound rest j hf
    | none =>
      by_cases hs : s = 0
      · rw [if_pos hs]
        intro h
        have hi0 : i = 0 := (Option.some_inj.1 h).symm
        subst hi0
        rw [List.get?_cons_zero, hs]
      · rw [if_neg hs]
        intro h
        cases h

theorem find_real_task_index_isSome :
    ∀ (qs : List Nat), 0 ∈ qs → (find_real_task_index qs).isSome = true
  | s :: rest, hm => by
    unfold find_real_task_index
    cases hf : find_real_task_index rest with
    | some j => rfl
    | none =>
      rcases List.mem_cons.1 hm with h0 | h0
      · rw [if_pos h0.symm]
        rfl
      · have := find_real_task_index_isSome rest h0
        rw [hf] at this
        cases this

/-- Full characterisation of `_send_with_temporal_mixing` under the shuffle
contract (`query_indices` is a permutation of `range M`). -/
theorem send_with_temporal_mixing_eq {Raw : Type} (d : Driver Raw) (real_prompt : String)
    (decoy_prompts : List String) (streaming : Bool) (qs : List Nat)
    (hperm : qs.Perm (List.range (decoy_prompts.length + 1))) :
    send_with_temporal_mixing d real_prompt decoy_prompts streaming qs =
      some { response := send_regular_message d real_prompt streaming,
             temporal_mixing := [("active", MetaVal.boolVal true),
                                 ("total_queries", MetaVal.natVal (decoy_prompts.length + 1))],
             trace := qs.map (fun s =>
               { originalIndex := s,
                 prompt := (real_prompt :: decoy_prompts).getD s "",
                 method := if s = 0 then regular_send_method d streaming
                           else decoy_send_method d streaming }) } := by
  have hlen : ∀ s ∈ qs, s < (real_prompt :: decoy_prompts).length := by
    intro s hs
    have hmem : s ∈ List.range (decoy_prompts.length + 1) := hperm.mem_iff.1 hs
    simpa using List.mem_range.1 hmem
  have h0 : 0 ∈ qs := hperm.mem_iff.2 (List.mem_range.2 (by omega))
  obtain ⟨i, hi⟩ := Option.isSome_iff_exists.1 (find_real_task_index_isSome qs h0)
  have hgi : qs.get? i = some 0 := find_real_task_index_sound qs i hi
  unfold send_with_temporal_mixing
  dsimp only
  rw [launch_queries_eq_map d _ streaming qs hlen, hi]
  have hti : (qs.map (fun s =>
      ({ originalIndex := s, prompt := (real_prompt :: decoy_prompts).getD s "",
         method := if s = 0 then regular_send_method d streaming
                   else decoy_send_method d streaming } : LaunchedQuery))).get? i =
      some { originalIndex := 0, prompt := real_prompt,
             method := regular_send_method d streaming } := by
    rw [List.get?_map, hgi]
    rfl
  dsimp only
  rw [hti]
  dsimp only
  rw [if_pos rfl]

/-- C1: a temporal-mixing dispatch with one real prompt and `N ≥ 1` decoys
launches exactly `M = N + 1` queries, returns the response of the task whose
pre-shuffle index is 0 (the real prompt) whatever permutation the shuffle
produced, and attaches exactly `{active: true, total_queries: M}` as the
`temporal_mixing` metadata — no position field and no per-query timing. -/
theorem temporal_mixing_returns_real {Raw : Type} (d : Driver Raw) (real_prompt : String)
    (decoy_prompts : List String) (streaming : Bool) (qs : List Nat)
    (_hN : 1 ≤ decoy_prompts.length)
    (hperm : qs.Perm (List.range (decoy_prompts.length + 1))) :
    ∃ trace, send_with_temporal_mixing d real_prompt decoy_prompts streaming qs =
        some { response := send_regular_message d real_prompt streaming,
               temporal_mixing := [("active", MetaVal.boolVal true),
                                   ("total_queries", MetaVal.natVal (decoy_prompts.length + 1))],
               trace := trace }
      ∧ trace.length = decoy_prompts.length + 1 := by
  refine ⟨_, send_with_temporal_mixing_eq d real_prompt decoy_prompts streaming qs hperm, ?_⟩
  rw [List.length_map, hperm.length_eq, List.length_range]

theorem temporal_mixing_returns_real_witness :
    ∃ trace, send_with_temporal_mixing (⟨fun _ => 0, some (fun _ => 1)⟩ : Driver Nat)
        "real" ["decoy"] false [1, 0] =
        some { response := send_regular_message
                 (⟨fun _ => 0, some (fun _ => 1)⟩ : Driver Nat) "real" false,
               temporal_mixing := [("active", MetaVal.boolVal true),
                                   ("total_queries", MetaVal.natVal 2)],
               trace := trace }
      ∧ trace.length = 2 :=
  temporal_mixing_returns_real (⟨fun _ => 0, some (fun _ => 1)⟩ : Driver Nat)
    "real" ["decoy"] false [1, 0] (by decide) (by decide)

/-- C2: every task of a temporal-mixing dispatch — the real one and every
decoy — invokes the same driver method, the one the caller's mode selects:
the streaming method when streaming was requested, otherwise the
non-streaming method with fallback to the streaming method when the driver
lacks one; `_execute_decoy_query` chooses methods identically to
`_send_regular_message`. -/
theorem temporal_mixing_mode_parity {Raw : Type} (d : Driver Raw) (real_prompt : String)
    (decoy_prompts : List String) (streaming : Bool) (qs : List Nat)
    (hperm : qs.Perm (List.range (decoy_prompts.length + 1))) :
    (∀ (d' : Driver Raw) (b : Bool), decoy_send_method d' b = regular_send_method d' b)
    ∧ ∃ out, send_with_temporal_mixing d real_prompt decoy_prompts streaming qs = some out
      ∧ ∀ q ∈ out.trace,
          q.method = regular_send_method d streaming
          ∧ (streaming = true → q.method = DriverMethod.streamingMethod)
          ∧ (streaming = false → q.method =
              (if d.sendMessageNonStreaming.isSome then DriverMethod.nonStreamingMethod
               else DriverMethod.streamingMethod)) := by
  refine ⟨fun _ _ => rfl, _,
    send_with_temporal_mixing_eq d real_prompt decoy_prompts streaming qs hperm, ?_⟩
  intro q hq
  obtain ⟨s, _, hqe⟩ := List.mem_map.1 hq
  have hmethod : q.method = regular_send_method d streaming := by
    rw [← hqe]
    show (if s = 0 then regular_send_method d streaming
          else decoy_send_method d streaming) = _
    have hde : decoy_send_method d streaming = regular_send_method d streaming := rfl
    rw [hde, ite_self]
  refine ⟨hmethod, ?_, ?_⟩
  · intro hstr
    subst hstr
    rw [hmethod]
    rfl
  · intro hstr
    subst hstr
    rw [hmethod]
    rfl

theorem temporal_mixing_mode_parity_witness :
    (∀ (d' : Driver Nat) (b : Bool), decoy_send_method d' b = regular_send_method d' b)
    ∧ ∃ out, send_with_temporal_mixing (⟨fun _ => 0, some (fun _ => 1)⟩ : Driver Nat)
          "real" ["decoy"] true [1, 0] = some out
      ∧ ∀ q ∈ out.trace,
          q.method = regular_send_method (⟨fun _ => 0, some (fun _ => 1)⟩ : Driver Nat) true
          ∧ (true = true → q.method = DriverMethod.streamingMethod)
          ∧ (true = false → q.method =
              (if (some (fun _ => (1 : Nat)) : Option (String → Nat)).isSome
               then DriverMethod.nonStreamingMethod
               else DriverMethod.streamingMethod)) :=
  temporal_mixing_mode_parity (⟨fun _ => 0, some (fun _ => 1)⟩ : Driver Nat)
    "real" ["decoy"] true [1, 0] (by decide)

theorem obfuscate_messages_id (st : ObfState) (messages : List ChatMessage)
    (session_id : Option String) (mapping_id : String) (now : Nat) :
    (obfuscate_messages st messages session_id mapping_id now).1 = messages := by
  have hmap : messages.map
      (fun m => ({ role := m.role, content := m.content } : ChatMessage)) = messages := by
    have he : (fun m => ({ role := m.role, content := m.content } : ChatMessage)) =
        fun m => m := rfl
    rw [he, List.map_id']
  unfold obfuscate_messages
  cases session_id <;> exact hmap

/-- C8: obfuscation round-trip.  The baseline obfuscator rebuilds each message
with its content string untouched and the deobfuscator returns the response
unchanged, so deobfuscate(obfuscate(x)) equals x on every content string for
any session and any time within (or outside) the mapping TTL; the reversal
mapping recorded for the session survives the lazy cleanup at obfuscation
time. -/
theorem obfuscation_roundtrip (st st2 : ObfState) (messages : List ChatMessage)
    (sid : String) (mapping_id : String) (now now2 : Nat)
    (response : List (String × String)) :
    ((obfuscate_messages st messages (some sid) mapping_id now).1).map
        ChatMessage.content = messages.map ChatMessage.content
    ∧ (deobfuscate_response st2 response now2).1 = response
    ∧ (mapping_id,
        { session_id := sid, original := messages,
          obfuscated := (obfuscate_messages st messages (some sid) mapping_id now).1,
          timestamp := now }) ∈
        ((obfuscate_messages st messages (some sid) mapping_id now).2).mappings := by
  refine ⟨by rw [obfuscate_messages_id], rfl, ?_⟩
  rw [obfuscate_messages_id]
  show (mapping_id, _) ∈ (cleanup_expired_mappings _ now).mappings
  unfold cleanup_expired_mappings
  by_cases hclean : now - st.last_cleanup < 300
  · rw [if_pos hclean]
    dsimp only
    refine List.mem_append.2 (Or.inr ?_)
    have : (obfuscate_messages st messages (some sid) mapping_id now).1 = messages :=
      obfuscate_messages_id st messages (some sid) mapping_id now
    simp [this]
  · rw [if_neg hclean]
    dsimp only
    refine List.mem_filter.2 ⟨List.mem_append.2 (Or.inr ?_), by simp⟩
    have : (obfuscate_messages st messages (some sid) mapping_id now).1 = messages :=
      obfuscate_messages_id st messages (some sid) mapping_id now
    simp [this]

theorem aget_aset_self {α : Type _} (l : List (String × α)) (k : String) (v : α) :
    aget (aset l k v) k = some v := by
  simp [aget, aset]

theorem aget_filter_ne {α : Type _} (l : List (String × α)) (k k' : String)
    (h : k' ≠ k) : aget (l.filter (fun p => decide (p.1 ≠ k))) k' = aget l k' := by
  induction l with
  | nil => rfl
  | cons p rest ih =>
    rcases p with ⟨k1, v1⟩
    by_cases hp : k1 = k
    · rw [List.filter_cons_of_neg (by simp [hp]), ih]
      have hrhs : aget ((k1, v1) :: rest) k' = aget rest k' := by
        show (if k1 = k' then some v1 else aget rest k') = aget rest k'
        rw [if_neg (fun e : k1 = k' => h (e ▸ hp))]
      rw [hrhs]
    · rw [List.filter_cons_of_pos (by simp [hp])]
      show (if k1 = k' then some v1 else aget (rest.filter (fun p => decide (p.1 ≠ k))) k') =
        (if k1 = k' then some v1 else aget rest k')
      by_cases hk1 : k1 = k'
      · rw [if_pos hk1, if_pos hk1]
      · rw [if_neg hk1, if_neg hk1]
        exact ih

theorem aget_aset_ne {α : Type _} (l : List (String × α)) (k k' : String) (v : α)
    (h : k' ≠ k) : aget (aset l k v) k' = aget l k' := by
  unfold aset
  show (if k = k' then some v else aget _ k') = _
  rw [if_neg (fun e => h e.symm)]
  exact aget_filter_ne l k k' h

theorem aget_adel_self {α : Type _} (l : List (String × α)) (k : String) :
    aget (adel l k) k = none := by
  induction l with
  | nil => rfl
  | cons p rest ih =>
    by_cases hp : p.1 = k
    · rw [adel, List.filter_cons_of_neg (by simp [hp])]
      exact ih
    · rw [adel, List.filter_cons_of_pos (by simp [hp])]
      unfold aget
      rw [if_neg hp]
      exact ih

theorem aget_adel_ne {α : Type _} (l : List (String × α)) (k k' : String)
    (h : k' ≠ k) : aget (adel l k) k' = aget l k' :=
  aget_filter_ne l k k' h

theorem aget_adel_none {α : Type _} (l : List (String × α)) (k k'' : String)
    (h : aget l k = none) : aget (adel l k'') k = none := by
  by_cases hk : k = k''
  · subst hk
    exact aget_adel_self l k
  · rw [aget_adel_ne l k'' k hk]
    exact h

theorem invalidate_fold_endpoints (eps : List CandidateEntry) (st : WebStore) :
    (eps.foldl (fun acc ep => { acc with endpoints := adel acc.endpoints ep.id })
      st).endpoints = eps.foldl (fun E ep => adel E ep.id) st.endpoints := by
  induction eps generalizing st with
  | nil => rfl
  | cons e rest ih => exact ih _

theorem invalidate_fold_session_endpoints (eps : List CandidateEntry) (st : WebStore) :
    (eps.foldl (fun acc ep => { acc with endpoints := adel acc.endpoints ep.id })
      st).session_endpoints = st.session_endpoints := by
  induction eps generalizing st with
  | nil => rfl
  | cons e rest ih => exact ih _

theorem invalidate_fold_sessions (eps : List CandidateEntry) (st : WebStore) :
    (eps.foldl (fun acc ep => { acc with endpoints := adel acc.endpoints ep.id })
      st).sessions = st.sessions := by
  induction eps generalizing st with
  | nil => rfl
  | cons e rest ih => exact ih _

theorem aget_fold_adel_none (rest : List CandidateEntry)
    (E : List (String × EndpointRecord)) (k : String) (h : aget E k = none) :
    aget (rest.foldl (fun E e => adel E e.id) E) k = none := by
  induction rest generalizing E with
  | nil => exact h
  | cons e r ih => exact ih _ (aget_adel_none _ _ _ h)

theorem aget_fold_adel (eps : List CandidateEntry) (E : List (String × EndpointRecord))
    (ep : CandidateEntry) (hm : ep ∈ eps) :
    aget (eps.foldl (fun E e => adel E e.id) E) ep.id = none := by
  induction eps generalizing E with
  | nil => cases hm
  | cons e rest ih =>
    rcases List.mem_cons.1 hm with rfl | hmem
    · exact aget_fold_adel_none rest _ _ (aget_adel_self E ep.id)
    · exact ih _ hmem

/-- Step effect of `_invalidate_session_endpoints`: every endpoint record named
in the session's candidate list is deleted, and the candidate list itself is
deleted; session records are untouched. -/
theorem invalidate_session_endpoints_spec (st : WebStore) (sid : String) :
    (∀ ep ∈ get_session_endpoints st sid,
      aget (invalidate_session_endpoints st sid).endpoints ep.id = none)
    ∧ aget (invalidate_session_endpoints st sid).session_endpoints sid = none
    ∧ (invalidate_session_endpoints st sid).sessions = st.sessions := by
  refine ⟨?_, ?_, ?_⟩
  · intro ep hm
    show aget (invalidate_session_endpoints st sid).endpoints ep.id = none
    unfold invalidate_session_endpoints
    dsimp only
    rw [invalidate_fold_endpoints]
    exact aget_fold_adel _ _ ep hm
  · unfold invalidate_session_endpoints
    dsimp only
    rw [invalidate_fold_session_endpoints]
    exact aget_adel_self _ _
  · unfold invalidate_session_endpoints
    dsimp only
    rw [invalidate_fold_sessions]

/-- C9: choosing a specific endpoint id that is not in the session's current
candidate list fails with an error, and no store write happens — the session's
stored binding (provider, model, endpoint id, key hash) is exactly as before
the call. -/
theorem choose_endpoint_error_atomic (st : WebStore) (sid eid : String) (pick : Nat)
    (h : eid ∉ (get_session_endpoints st sid).map CandidateEntry.id) :
    (∃ msg, (choose_session_endpoint st sid (some eid) pick).2 = Except.error msg)
    ∧ (choose_session_endpoint st sid (some eid) pick).1 = st
    ∧ get_session (choose_session_endpoint st sid (some eid) pick).1 sid =
        get_session st sid := by
  have hfind : (get_session_endpoints st sid).find? (fun ep => ep.id == eid) = none := by
    rw [List.find?_eq_none]
    intro ep hep hbeq
    exact h (List.mem_map.2 ⟨ep, hep, eq_of_beq hbeq⟩)
  unfold choose_session_endpoint
  dsimp only
  by_cases hempty : get_session_endpoints st sid = []
  · rw [if_pos hempty]
    exact ⟨⟨_, rfl⟩, rfl, rfl⟩
  · rw [if_neg hempty, hfind]
    exact ⟨⟨_, rfl⟩, rfl, rfl⟩

theorem choose_endpoint_error_atomic_witness :
    (∃ msg, (choose_session_endpoint sampleStore "s1" (some "e2") 0).2 = Except.error msg)
    ∧ (choose_session_endpoint sampleStore "s1" (some "e2") 0).1 = sampleStore
    ∧ get_session (choose_session_endpoint sampleStore "s1" (some "e2") 0).1 "s1" =
        get_session sampleStore "s1" :=
  choose_endpoint_error_atomic sampleStore "s1" "e2" 0 (by decide)

theorem get_session_store (st : WebStore) (s3 : WebSessionState) (k : String)
    (h : s3.session_id = k) : get_session (store_session_state st s3) k = some s3 := by
  unfold get_session store_session_state
  dsimp only
  rw [h]
  exact aget_aset_self _ _ _

theorem store_session_state_session_endpoints (st : WebStore) (s3 : WebSessionState) :
    (store_session_state st s3).session_endpoints = st.session_endpoints := rfl

theorem store_session_state_endpoints (st : WebStore) (s3 : WebSessionState) :
    (store_session_state st s3).endpoints = st.endpoints := rfl

theorem sewk_fold_session_endpoints (keys : List SelectedKey) (sid : String)
    (env : TimeEnv) (st : WebStore) :
    (keys.foldl (fun acc k =>
      let epRec := endpoint_record_of sid env k
      { acc with endpoints := aset acc.endpoints epRec.id epRec }) st).session_endpoints =
      st.session_endpoints := by
  induction keys generalizing st with
  | nil => rfl
  | cons k rest ih => exact ih _

theorem sewk_fold_sessions (keys : List SelectedKey) (sid : String)
    (env : TimeEnv) (st : WebStore) :
    (keys.foldl (fun acc k =>
      let epRec := endpoint_record_of sid env k
      { acc with endpoints := aset acc.endpoints epRec.id epRec }) st).sessions =
      st.sessions := by
  induction keys generalizing st with
  | nil => rfl
  | cons k rest ih => exact ih _

theorem store_session_endpoints_with_keys_session_endpoints (st : WebStore)
    (sid : String) (keys : List SelectedKey) (env : TimeEnv) :
    (store_session_endpoints_with_keys st sid keys env).session_endpoints =
      aset st.session_endpoints sid (keys.map (candidate_entry_of sid env)) := by
  unfold store_session_endpoints_with_keys
  dsimp only
  rw [sewk_fold_session_endpoints]

theorem store_session_endpoints_with_keys_sessions (st : WebStore)
    (sid : String) (keys : List SelectedKey) (env : TimeEnv) :
    (store_session_endpoints_with_keys st sid keys env).sessions = st.sessions := by
  unfold store_session_endpoints_with_keys
  dsimp only
  rw [sewk_fold_sessions]

/-- C10: whenever the key allocator returns the empty key list during a model
update, `update_session_models` reports `needs_disconnection = true`, clears
the session binding (provider, model, endpoint id, key hash), stores the new
model list, and replaces the candidate list with the empty list — whether or
not the currently bound (provider, model) is still in the new model list. -/
theorem update_models_empty_alloc_disconnects (st : WebStore) (sid : String)
    (new_models : List String) (env : TimeEnv) (s : WebSessionState)
    (hs : get_session st sid = some s) (hsid : s.session_id = sid) :
    (∃ msg, (update_session_models st sid new_models (some []) env).2 =
      Except.ok (true, msg))
    ∧ (∃ s', get_session (update_session_models st sid new_models (some []) env).1 sid =
        some s'
        ∧ s'.current_provider = "" ∧ s'.current_model = "" ∧ s'.endpoint_id = none
        ∧ s'.api_key_hash = none ∧ s'.selected_models = new_models)
    ∧ aget (update_session_models st sid new_models
        (some []) env).1.session_endpoints sid = some [] := by
  unfold update_session_models
  rw [hs]
  dsimp only [Option.getD]
  have hde : (decide (([] : List SelectedKey) = [])) = true := rfl
  rw [if_pos (rfl : ([] : List SelectedKey) = []), hde, Bool.or_true]
  by_cases hd : (s.current_provider ≠ "" ∧ s.current_model ≠ "" ∧
      (s.current_provider ++ "/" ++ s.current_model) ∉ new_models)
  · rw [if_pos hd]
    refine ⟨⟨_, rfl⟩, ⟨_, get_session_store _ _ _ ?_, rfl, rfl, rfl, rfl, rfl⟩, ?_⟩
    · exact hsid
    · rw [store_session_state_session_endpoints,
        store_session_endpoints_with_keys_session_endpoints]
      exact aget_aset_self _ _ _
  · rw [if_neg hd]
    refine ⟨⟨_, rfl⟩, ⟨_, get_session_store _ _ _ ?_, rfl, rfl, rfl, rfl, rfl⟩, ?_⟩
    · exact hsid
    · rw [store_session_state_session_endpoints,
        store_session_endpoints_with_keys_session_endpoints]
      exact aget_aset_self _ _ _

theorem update_models_empty_alloc_disconnects_witness :
    (∃ msg, (update_session_models sampleStore "s1" ["openai/gpt-4o"] (some [])
        sampleTimeEnv).2 = Except.ok (true, msg))
    ∧ (∃ s', get_session (update_session_models sampleStore "s1" ["openai/gpt-4o"]
          (some []) sampleTimeEnv).1 "s1" = some s'
        ∧ s'.current_provider = "" ∧ s'.current_model = "" ∧ s'.endpoint_id = none
        ∧ s'.api_key_hash = none ∧ s'.selected_models = ["openai/gpt-4o"])
    ∧ aget (update_session_models sampleStore "s1" ["openai/gpt-4o"]
        (some []) sampleTimeEnv).1.session_endpoints "s1" = some [] :=
  update_models_empty_alloc_disconnects sampleStore "s1" ["openai/gpt-4o"]
    sampleTimeEnv sampleSessionState (by decide) (by decide)

theorem update_session_models_some_spec (st : WebStore) (sid : String)
    (models : List String) (keys : List SelectedKey) (env : TimeEnv)
    (s : WebSessionState) (hs : get_session st sid = some s)
    (hsid : s.session_id = sid) (hkeys : keys ≠ []) :
    ∃ s3 r, update_session_models st sid models (some keys) env =
      (store_session_state (store_session_endpoints_with_keys st sid keys env) s3,
        Except.ok r)
      ∧ s3.session_id = sid ∧ s3.selected_models = models := by
  unfold update_session_models
  rw [hs]
  dsimp only [Option.getD]
  rw [if_neg hkeys]
  by_cases hd : (s.current_provider ≠ "" ∧ s.current_model ≠ "" ∧
      (s.current_provider ++ "/" ++ s.current_model) ∉ models)
  · rw [if_pos hd]
    exact ⟨_, _, rfl, hsid, rfl⟩
  · rw [if_neg hd]
    exact ⟨_, _, rfl, hsid, rfl⟩

theorem choose_random_spec (st : WebStore) (sid : String) (pick : Nat)
    (s : WebSessionState) (hne : get_session_endpoints st sid ≠ [])
    (hs : get_session st sid = some s) (hsid : s.session_id = sid) :
    ∃ s', choose_session_endpoint st sid none pick =
      (store_session_state st s',
        Except.ok
          { provider := ((get_session_endpoints st sid).getD pick default).provider,
            model := ((get_session_endpoints st sid).getD pick default).models_accessible,
            endpoint_id := ((get_session_endpoints st sid).getD pick default).id,
            api_key_hash := ((get_session_endpoints st sid).getD pick default).api_key_hash })
      ∧ s'.session_id = sid
      ∧ s'.endpoint_id = some ((get_session_endpoints st sid).getD pick default).id
      ∧ s'.current_provider = ((get_session_endpoints st sid).getD pick default).provider
      ∧ s'.current_model = ((get_session_endpoints st sid).getD pick default).models_accessible
      ∧ s'.api_key_hash = some ((get_session_endpoints st sid).getD pick default).api_key_hash := by
  unfold choose_session_endpoint choose_session_endpoint_bind
  dsimp only
  rw [if_neg hne, hs]
  exact ⟨_, rfl, hsid, rfl, rfl, rfl, rfl⟩

/-- C4 (amended): after a successful single-turn completion, the invalidation
step has deleted every candidate endpoint record the session held and the
candidate list itself, and the binding is cleared before regeneration; when
the session's model list is non-empty and the key allocation returned at
least one key, a fresh non-empty candidate list is stored and the session is
re-bound to the randomly picked member (with an empty allocation the
completion still reports success with an empty candidate list and no binding,
per the counterexample). -/
theorem complete_single_turn_resets (st : WebStore) (sid : String)
    (keys : List SelectedKey) (env : TimeEnv) (pick : Nat) (s : WebSessionState)
    (hs : get_session st sid = some s) (hsid : s.session_id = sid)
    (hm : s.selected_models ≠ []) (hkeys : keys ≠ []) (hpick : pick < keys.length) :
    (∀ ep ∈ get_session_endpoints st sid,
      aget (invalidate_session_endpoints st sid).endpoints ep.id = none)
    ∧ aget (invalidate_session_endpoints st sid).session_endpoints sid = none
    ∧ (complete_single_turn st sid (some keys) env pick).2.success = true
    ∧ ∃ newList,
        aget (complete_single_turn st sid (some keys) env pick).1.session_endpoints sid =
          some newList
        ∧ newList = keys.map (candidate_entry_of sid env)
        ∧ newList ≠ []
        ∧ (complete_single_turn st sid (some keys) env pick).2.new_endpoints = newList
        ∧ ∃ ch, (complete_single_turn st sid (some keys) env pick).2.auto_selected = some ch
          ∧ ch.endpoint_id ∈ newList.map CandidateEntry.id
          ∧ ∃ s', get_session (complete_single_turn st sid (some keys) env pick).1 sid =
              some s'
            ∧ s'.endpoint_id = some ch.endpoint_id
            ∧ s'.current_provider = ch.provider
            ∧ s'.current_model = ch.model
            ∧ s'.api_key_hash = some ch.api_key_hash := by
  refine ⟨(invalidate_session_endpoints_spec st sid).1,
    (invalidate_session_endpoints_spec st sid).2.1, ?_⟩
  have hcompute : ∃ st4 res, complete_single_turn st sid (some keys) env pick = (st4, res) :=
    ⟨_, _, rfl⟩
  -- unfold the workflow step by step
  have hs2 : get_session (store_session_state (invalidate_session_endpoints st sid)
      { s with endpoint_id := none, current_provider := "", current_model := "",
               api_key_hash := none }) sid =
      some { s with endpoint_id := none, current_provider := "", current_model := "",
                    api_key_hash := none } :=
    get_session_store _ _ _ hsid
  obtain ⟨s3, r, hupd, hs3id, hs3models⟩ :=
    update_session_models_some_spec
      (store_session_state (invalidate_session_endpoints st sid)
        { s with endpoint_id := none, current_provider := "", current_model := "",
                 api_key_hash := none })
      sid s.selected_models keys env _ hs2 hsid hkeys
  set st3 := store_session_state
    (store_session_endpoints_with_keys
      (store_session_state (invalidate_session_endpoints st sid)
        { s with endpoint_id := none, current_provider := "", current_model := "",
                 api_key_hash := none })
      sid keys env) s3 with hst3
  have hge : get_session_endpoints st3 sid = keys.map (candidate_entry_of sid env) := by
    unfold get_session_endpoints
    rw [hst3, store_session_state_session_endpoints,
      store_session_endpoints_with_keys_session_endpoints, aget_aset_self]
    rfl
  have hne : keys.map (candidate_entry_of sid env) ≠ [] := by
    simpa [List.map_eq_nil_iff] using hkeys
  have hne' : get_session_endpoints st3 sid ≠ [] := by
    rw [hge]
    exact hne
  obtain ⟨s4, hchoose, hs4id, hs4ep, hs4prov, hs4model, hs4hash⟩ :=
    choose_random_spec st3 sid pick s3 hne' (get_session_store _ _ _ hs3id) hs3id
  have hmain : complete_single_turn st sid (some keys) env pick =
      (store_session_state st3 s4,
        { success := true,
          new_endpoints := keys.map (candidate_entry_of sid env),
          auto_selected := some
            { provider := ((get_session_endpoints st3 sid).getD pick default).provider,
              model := ((get_session_endpoints st3 sid).getD pick default).models_accessible,
              endpoint_id := ((get_session_endpoints st3 sid).getD pick default).id,
              api_key_hash := ((get_session_endpoints st3 sid).getD pick default).api_key_hash },
          message := "Single-turn completed. " ++
            toString (keys.map (candidate_entry_of sid env)).length ++
            " new endpoints available." }) := by
    unfold complete_single_turn
    rw [hs]
    dsimp only
    rw [if_neg hm, hupd]
    dsimp only
    rw [hge, if_neg hne, hchoose, hge]
  rw [hmain]
  dsimp only
  refine ⟨rfl, keys.map (candidate_entry_of sid env), ?_, rfl, hne, rfl, _, rfl, ?_,
    s4, get_session_store _ _ _ hs4id, hs4ep, hs4prov, hs4model, hs4hash⟩
  · rw [store_session_state_session_endpoints, hst3,
      store_session_state_session_endpoints,
      store_session_endpoints_with_keys_session_endpoints]
    exact aget_aset_self _ _ _
  · -- the chosen id is a member of the fresh candidate list
    rw [hge]
    have hlt : pick < (keys.map (candidate_entry_of sid env)).length := by
      rw [List.length_map]
      exact hpick
    rw [List.getD_eq_getElem?_getD, List.getElem?_eq_getElem hlt]
    exact List.mem_map.2 ⟨_, List.getElem?_mem (List.getElem?_eq_getElem hlt), rfl⟩

theorem complete_single_turn_resets_witness :
    (∀ ep ∈ get_session_endpoints sampleStore "s1",
      aget (invalidate_session_endpoints sampleStore "s1").endpoints ep.id = none)
    ∧ aget (invalidate_session_endpoints sampleStore "s1").session_endpoints "s1" = none
    ∧ (complete_single_turn sampleStore "s1" (some [sampleKey]) sampleTimeEnv 0).2.success =
        true
    ∧ ∃ newList,
        aget (complete_single_turn sampleStore "s1" (some [sampleKey])
            sampleTimeEnv 0).1.session_endpoints "s1" = some newList
        ∧ newList = [sampleKey].map (candidate_entry_of "s1" sampleTimeEnv)
        ∧ newList ≠ []
        ∧ (complete_single_turn sampleStore "s1" (some [sampleKey])
            sampleTimeEnv 0).2.new_endpoints = newList
        ∧ ∃ ch, (complete_single_turn sampleStore "s1" (some [sampleKey])
              sampleTimeEnv 0).2.auto_selected = some ch
          ∧ ch.endpoint_id ∈ newList.map CandidateEntry.id
          ∧ ∃ s', get_session (complete_single_turn sampleStore "s1" (some [sampleKey])
                sampleTimeEnv 0).1 "s1" = some s'
            ∧ s'.endpoint_id = some ch.endpoint_id
            ∧ s'.current_provider = ch.provider
            ∧ s'.current_model = ch.model
            ∧ s'.api_key_hash = some ch.api_key_hash :=
  complete_single_turn_resets sampleStore "s1" [sampleKey] sampleTimeEnv 0
    sampleSessionState (by decide) (by decide) (by decide) (by decide) (by decide)

/-- C4 counterexample: when the session's model list is non-empty but the key
allocator returns the empty list, the single-turn completion still reports
success, yet no fresh member exists to re-bind to — `auto_selected` is `none`,
the stored candidate list is empty and the binding stays cleared, contradicting
the claim that a successful completion re-binds the session whenever its model
list was non-empty. -/
theorem complete_single_turn_empty_alloc_no_rebind :
    sampleSessionState.selected_models ≠ []
    ∧ (complete_single_turn sampleStore "s1" (some []) sampleTimeEnv 0).2.success = true
    ∧ (complete_single_turn sampleStore "s1" (some []) sampleTimeEnv 0).2.auto_selected =
        none
    ∧ ((get_session (complete_single_turn sampleStore "s1" (some [])
        sampleTimeEnv 0).1 "s1").map WebSessionState.endpoint_id) = some none
    ∧ ((get_session (complete_single_turn sampleStore "s1" (some [])
        sampleTimeEnv 0).1 "s1").map WebSessionState.current_provider) = some ""
    ∧ aget (complete_single_turn sampleStore "s1" (some [])
        sampleTimeEnv 0).1.session_endpoints "s1" = some [] := by
  decide

end OAChat
